import Mathlib

set_option maxHeartbeats 1000000

/-!
Verification of the hierarchical agent-record store of
`agent-master-console/server/agent_core/agent_registry.py` (class
`AgentRegistry`) and its HTTP entry points in
`agent-master-console/server/main.py`.

Records are JSON objects persisted one file per record; we model JSON
values (`JVal`), dictionaries as association lists in insertion order
(Python `dict` semantics), and the store as the list of `(filename, record)`
pairs in enumeration order.  Recursive traversals of the parent/child
graph are embedded with explicit fuel, since the source recursion is
unbounded on cyclic `parent_agent_id` links.
-/

/-- A JSON value as stored in the registry's files. -/
inductive JVal where
  | str : String → JVal
  | arr : List JVal → JVal
  | obj : List (String × JVal) → JVal
  | null : JVal
deriving Repr

mutual

def JVal.decEq : (a b : JVal) → Decidable (a = b)
  | JVal.null, JVal.null => isTrue rfl
  | JVal.null, JVal.str _ => isFalse (fun h => JVal.noConfusion h)
  | JVal.null, JVal.arr _ => isFalse (fun h => JVal.noConfusion h)
  | JVal.null, JVal.obj _ => isFalse (fun h => JVal.noConfusion h)
  | JVal.str _, JVal.null => isFalse (fun h => JVal.noConfusion h)
  | JVal.str _, JVal.arr _ => isFalse (fun h => JVal.noConfusion h)
  | JVal.str _, JVal.obj _ => isFalse (fun h => JVal.noConfusion h)
  | JVal.arr _, JVal.null => isFalse (fun h => JVal.noConfusion h)
  | JVal.arr _, JVal.str _ => isFalse (fun h => JVal.noConfusion h)
  | JVal.arr _, JVal.obj _ => isFalse (fun h => JVal.noConfusion h)
  | JVal.obj _, JVal.null => isFalse (fun h => JVal.noConfusion h)
  | JVal.obj _, JVal.str _ => isFalse (fun h => JVal.noConfusion h)
  | JVal.obj _, JVal.arr _ => isFalse (fun h => JVal.noConfusion h)
  | JVal.str a, JVal.str b =>
    if h : a = b then isTrue (by rw [h])
    else isFalse (by intro he; cases he; exact h rfl)
  | JVal.arr xs, JVal.arr ys =>
    match JVal.decEqL xs ys with
    | isTrue h => isTrue (by rw [h])
    | isFalse h => isFalse (by intro he; cases he; exact h rfl)
  | JVal.obj xs, JVal.obj ys =>
    match JVal.decEqO xs ys with
    | isTrue h => isTrue (by rw [h])
    | isFalse h => isFalse (by intro he; cases he; exact h rfl)

def JVal.decEqL : (xs ys : List JVal) → Decidable (xs = ys)
  | [], [] => isTrue rfl
  | [], _ :: _ => isFalse (fun h => List.noConfusion h)
  | _ :: _, [] => isFalse (fun h => List.noConfusion h)
  | x :: xs, y :: ys =>
    match JVal.decEq x y, JVal.decEqL xs ys with
    | isTrue h1, isTrue h2 => isTrue (by rw [h1, h2])
    | isFalse h1, _ => isFalse (by intro he; injection he with e1 e2; exact h1 e1)
    | _, isFalse h2 => isFalse (by intro he; injection he with e1 e2; exact h2 e2)

def JVal.decEqO : (xs ys : List (String × JVal)) → Decidable (xs = ys)
  | [], [] => isTrue rfl
  | [], _ :: _ => isFalse (fun h => List.noConfusion h)
  | _ :: _, [] => isFalse (fun h => List.noConfusion h)
  | (k1, v1) :: xs, (k2, v2) :: ys =>
    if hk : k1 = k2 then
      match JVal.decEq v1 v2, JVal.decEqO xs ys with
      | isTrue h1, isTrue h2 => isTrue (by rw [hk, h1, h2])
      | isFalse h1, _ =>
        isFalse (by intro he; injection he with e1 e2; exact h1 (congrArg Prod.snd e1))
      | _, isFalse h2 =>
        isFalse (by intro he; injection he with e1 e2; exact h2 e2)
    else
      isFalse (by intro he; injection he with e1 e2; exact hk (congrArg Prod.fst e1))

end

instance : DecidableEq JVal := JVal.decEq

/-- A Python dict with string keys, in insertion order. -/
abbrev Dict := List (String × JVal)

/-- Python `d.get(k)` — `None` when the key is absent. -/
def dget (d : Dict) (k : String) : Option JVal :=
  (d.find? (fun p => p.1 = k)).map (·.2)

/-- Python `d.get(k, dflt)`. -/
def dgetD (d : Dict) (k : String) (dflt : JVal) : JVal :=
  (dget d k).getD dflt

/-- Python key assignment: replace in place when the key exists, else
append. -/
def dset (d : Dict) (k : String) (v : JVal) : Dict :=
  if d.any (fun p => p.1 = k) then
    d.map (fun p => if p.1 = k then (k, v) else p)
  else d ++ [(k, v)]

/-- The registry's directory: one JSON file per agent, keyed by the
filename stem (`{agent_id}.json`), in enumeration order. -/
abbrev Store := List (String × Dict)

/-- Writing `{aid}.json`: overwrite in place, or create (appended in
enumeration order). -/
def writeFile (store : Store) (aid : String) (d : Dict) : Store :=
  if store.any (fun p => p.1 = aid) then
    store.map (fun p => if p.1 = aid then (aid, d) else p)
  else store ++ [(aid, d)]

/-- Source `AgentRegistry.get_agent`: read `{aid}.json`; `none` models the
`FileNotFoundError`. -/
def get_agent (store : Store) (aid : String) : Option Dict :=
  (store.find? (fun p => p.1 = aid)).map (·.2)

/-- Source `AgentRegistry.create_agent`: build the five-field record (fresh
`agent_id` is passed in, modelling `uuid.uuid4()`), persist, return it. -/
def create_agent (store : Store) (aid : String) (config : Dict) : Store × Dict :=
  let record : Dict :=
    [("id", JVal.str aid),
     ("name", dgetD config "name" (JVal.str ("Agent " ++ aid.take 8))),
     ("model", dgetD config "model" (JVal.str "gpt-4.1-mini")),
     ("system_prompt", dgetD config "system_prompt" (JVal.str "You are a helpful assistant.")),
     ("tools", dgetD config "tools" (JVal.arr []))]
  (writeFile store aid record, record)

/-- Source `AgentRegistry.update_agent`: merge every supplied key except `id`
into the existing record, force `id` back, persist; `none` models the
`FileNotFoundError`. -/
def update_agent (store : Store) (aid : String) (updates : Dict) :
    Option (Store × Dict) :=
  match get_agent store aid with
  | none => none
  | some agent =>
    let merged := updates.foldl
      (fun acc kv => if kv.1 = "id" then acc else dset acc kv.1 kv.2) agent
    let final := dset merged "id" (JVal.str aid)
    some (writeFile store aid final, final)

/-- Source `AgentRegistry._get_children`: scan every record, keep those whose
`parent_agent_id` equals the given value (`data.get` yields `None` when
the key is absent). -/
def get_children (store : Store) (pid : JVal) : List Dict :=
  (store.filter (fun p => dgetD p.2 "parent_agent_id" JVal.null = pid)).map (·.2)

/-- The six-field dict that `build` constructs for one node
(`tree_node` in `get_agent_tree`), given the already-expanded children. -/
def mkTreeNode (node : Dict) (cs : List JVal) : JVal :=
  JVal.obj
    [("id", dgetD node "id" JVal.null),
     ("name", dgetD node "name" JVal.null),
     ("model", dgetD node "model" JVal.null),
     ("system_prompt", dgetD node "system_prompt" JVal.null),
     ("tools", dgetD node "tools" (JVal.arr [])),
     ("children", JVal.arr cs)]

/-- One level of the `build` recursion of `get_agent_tree`: expand each
node of a sibling list in order, where `step` expands a child list one
level deeper.  `none` aborts the whole expansion (fuel ran out below). -/
def buildGo (store : Store) (step : List Dict → Option (List JVal)) :
    List Dict → Option (List JVal)
  | [] => some []
  | c :: cs =>
    match (step (get_children store (dgetD c "id" JVal.null))).map (mkTreeNode c) with
    | none => none
    | some t => (buildGo store step cs).map (t :: ·)

/-- The `build` recursion of `get_agent_tree` on a sibling list, with
explicit fuel bounding the recursion depth: `none` means the source
recursion (which has no cycle guard and no depth bound) has not finished
within `fuel` levels. -/
def buildL (store : Store) : Nat → List Dict → Option (List JVal)
  | 0, nodes => match nodes with | [] => some [] | _ :: _ => none
  | Nat.succ f, nodes => buildGo store (fun ns => buildL store f ns) nodes

/-- The inner `build` of `AgentRegistry.get_agent_tree` on one node:
the node's six-field dict with its children expanded within `fuel`
levels; `none` when the source recursion has not finished. -/
def buildNode (store : Store) (fuel : Nat) (node : Dict) : Option JVal :=
  match fuel with
  | 0 => none
  | Nat.succ f =>
    (buildL store f (get_children store (dgetD node "id" JVal.null))).map (mkTreeNode node)

/-- Source `AgentRegistry.get_agent_tree`: an `Except.error` models the propagated
`FileNotFoundError`; outer `none` means the recursion has not finished
within `fuel`. -/
def get_agent_tree (store : Store) (fuel : Nat) (rid : String) :
    Option (Except String JVal) :=
  match get_agent store rid with
  | none => some (Except.error ("Agent " ++ rid ++ " not found"))
  | some root => (buildNode store fuel root).map Except.ok

/-- The `matches` predicate inside `find_delegation_chain`. -/
def matchesA (task : String) (agent : Dict) : Bool :=
  dgetD agent "agent_type" JVal.null = JVal.str task
  || (match dgetD agent "capabilities" (JVal.arr []) with
      | JVal.arr xs => xs.contains (JVal.str task)
      | _ => false)
  || (match dgetD agent "specializations" (JVal.arr []) with
      | JVal.arr xs => xs.contains (JVal.str task)
      | _ => false)

/-- The child loop of `dfs` in `find_delegation_chain`: try each child
in order, returning the first chain found (`if chain: return chain`);
`step` runs `dfs` on one child's subtree.  Outer `none` means fuel ran
out below; `some none` means the loop finished with no match. -/
def dfsGo (store : Store) (task : String)
    (step : List Dict → List JVal → Option (Option (List JVal))) :
    List Dict → List JVal → Option (Option (List JVal))
  | [], _ => some none
  | c :: cs, cur =>
    match (if matchesA task c then some (some (cur ++ [dgetD c "id" JVal.null]))
           else step (get_children store (dgetD c "id" JVal.null))
                     (cur ++ [dgetD c "id" JVal.null])) with
    | none => none
    | some (some chain) => some (some chain)
    | some none => dfsGo store task step cs cur

/-- The `dfs` recursion of `find_delegation_chain` over a sibling list,
with explicit fuel bounding the recursion depth: outer `none` means the
source recursion has not finished within `fuel` levels; `some none`
means it finished and found no match; `some (some p)` means it returned
path `p`. -/
def dfsL (store : Store) (task : String) :
    Nat → List Dict → List JVal → Option (Option (List JVal))
  | 0, nodes, _ => match nodes with | [] => some none | _ :: _ => none
  | Nat.succ f, nodes, cur => dfsGo store task (fun ns p => dfsL store task f ns p) nodes cur

/-- The inner `dfs` of `find_delegation_chain` on one node with the
accumulated `path`: append the node's id, return the path on a match,
else search the children in order. -/
def dfsF (store : Store) (task : String) (fuel : Nat) (agent : Dict)
    (path : List JVal) : Option (Option (List JVal)) :=
  match fuel with
  | 0 => none
  | Nat.succ f =>
    if matchesA task agent then some (some (path ++ [dgetD agent "id" JVal.null]))
    else dfsL store task f (get_children store (dgetD agent "id" JVal.null))
              (path ++ [dgetD agent "id" JVal.null])

/-- Source `AgentRegistry.find_delegation_chain`: catches the missing-root error
and returns `[]`; `result or []` maps a finished, matchless search to `[]`.
Outer `none` again means the recursion has not finished within `fuel`. -/
def find_delegation_chain (store : Store) (task : String) (rid : String)
    (fuel : Nat) : Option (List JVal) :=
  match get_agent store rid with
  | none => some []
  | some root => (dfsF store task fuel root []).map (fun r => r.getD [])

/-- One level of the reference pre-order traversal over a sibling list:
each node contributes its `(root-to-node path, node)` pair followed by
its subtree's pairs, siblings concatenated in order. -/
def poGo (store : Store)
    (step : List Dict → List JVal → Option (List (List JVal × Dict))) :
    List Dict → List JVal → Option (List (List JVal × Dict))
  | [], _ => some []
  | c :: cs, cur =>
    match (step (get_children store (dgetD c "id" JVal.null))
                (cur ++ [dgetD c "id" JVal.null])).map
          (fun rest => (cur ++ [dgetD c "id" JVal.null], c) :: rest) with
    | none => none
    | some l1 => (poGo store step cs cur).map (l1 ++ ·)

/-- Reference pre-order traversal of a sibling list: the `(path, node)`
pairs in the exact visiting order `dfs` follows, computed without
pruning.  `none` when `fuel` does not cover the whole traversal. -/
def poL (store : Store) : Nat → List Dict → List JVal → Option (List (List JVal × Dict))
  | 0, nodes, _ => match nodes with | [] => some [] | _ :: _ => none
  | Nat.succ f, nodes, cur => poGo store (fun ns p => poL store f ns p) nodes cur

/-- Reference pre-order traversal rooted at one node. -/
def poP (store : Store) (fuel : Nat) (node : Dict) (path : List JVal) :
    Option (List (List JVal × Dict)) :=
  match fuel with
  | 0 => none
  | Nat.succ f =>
    (poL store f (get_children store (dgetD node "id" JVal.null))
         (path ++ [dgetD node "id" JVal.null])).map
      (fun rest => (path ++ [dgetD node "id" JVal.null], node) :: rest)

/-- The record's `id` value as read by the traversals (`agent.get("id")`). -/
def idOf (r : Dict) : JVal := dgetD r "id" JVal.null

/-- The record's `parent_agent_id` value (`data.get("parent_agent_id")`). -/
def parentOf (r : Dict) : JVal := dgetD r "parent_agent_id" JVal.null

/-- A `constr(min_length, max_length)` string field check from the
pydantic models in `main.py` (`none` max = unbounded). -/
def vStr (v : JVal) (minLen : Nat) (maxLen : Option Nat) : Option String :=
  match v with
  | JVal.str s =>
    if minLen ≤ s.length && (match maxLen with | none => true | some m => s.length ≤ m)
    then some s else none
  | _ => none

/-- Validation of `AgentCreate` plus `model_dump()` in `main.py`: `name` is required with
`1 ≤ len ≤ 100`; `model`, `system_prompt` default and require `len ≥ 1`;
`tools` defaults to `[]`, every element a string with `len ≥ 1`.
`none` models the pydantic `ValidationError` (HTTP 422). -/
def parseAgentCreate (body : Dict) : Option Dict := do
  let nv ← dget body "name"
  let name ← vStr nv 1 (some 100)
  let model ← vStr ((dget body "model").getD (JVal.str "gpt-4.1-mini")) 1 none
  let sp ← vStr ((dget body "system_prompt").getD (JVal.str "You are a helpful assistant.")) 1 none
  let tools ←
    match (dget body "tools").getD (JVal.arr []) with
    | JVal.arr xs => xs.mapM (fun x => (vStr x 1 none).map JVal.str)
    | _ => none
  pure [("name", JVal.str name), ("model", JVal.str model),
        ("system_prompt", JVal.str sp), ("tools", JVal.arr tools)]

/-- Handler of `POST /agents` in `main.py`: validate the body as `AgentCreate`,
then `registry.create_agent(config.model_dump())`.  On a validation
error the store is returned untouched with no record. -/
def createEndpoint (store : Store) (aid : String) (body : Dict) :
    Store × Option Dict :=
  match parseAgentCreate body with
  | none => (store, none)
  | some cfg =>
    let r := create_agent store aid cfg
    (r.1, some r.2)

/-- Boolean form of the `constr` string check. -/
def isStrOk (minLen : Nat) (maxLen : Option Nat) (v : JVal) : Bool :=
  match v with
  | JVal.str s => minLen ≤ s.length && (match maxLen with | none => true | some m => s.length ≤ m)
  | _ => false

/-- Check for an `Optional[List[constr(min_length=m)]]` field. -/
def isStrListOk (minLen : Nat) (v : JVal) : Bool :=
  match v with
  | JVal.arr xs => xs.all (isStrOk minLen none)
  | _ => false

/-- One optional field of `AgentUpdate`: absent or `null` is dropped by
`model_dump(exclude_none=True)`; a present non-null value must pass the
field's check or the whole body is rejected. -/
def vOptField (body : Dict) (k : String) (check : JVal → Bool) :
    Option (Option (String × JVal)) :=
  match dget body k with
  | none => some none
  | some JVal.null => some none
  | some v => if check v then some (some (k, v)) else none

/-- Validation of `AgentUpdate` plus `model_dump(exclude_none=True)` from
the `PUT /agents/{agent_id}` handler in `main.py`. -/
def parseAgentUpdate (body : Dict) : Option Dict := do
  let f1 ← vOptField body "name" (isStrOk 1 (some 100))
  let f2 ← vOptField body "model" (isStrOk 1 none)
  let f3 ← vOptField body "system_prompt" (isStrOk 1 none)
  let f4 ← vOptField body "tools" (isStrListOk 1)
  let f5 ← vOptField body "parent_agent_id" (isStrOk 0 none)
  let f6 ← vOptField body "capabilities" (isStrListOk 0)
  let f7 ← vOptField body "specializations" (isStrListOk 0)
  pure ([f1, f2, f3, f4, f5, f6, f7].filterMap id)

/-- Handler of `PUT /agents/{agent_id}` in `main.py`: validate, filter `None`
fields, then `registry.update_agent`.  Validation errors (422) and the
missing-record error (404) both leave the store untouched. -/
def updateEndpoint (store : Store) (aid : String) (body : Dict) :
    Store × Option Dict :=
  match parseAgentUpdate body with
  | none => (store, none)
  | some u =>
    match update_agent store aid u with
    | none => (store, none)
    | some r => (r.1, some r.2)

/-- Modelled from the spec: the Record Store's `delete(id) -> bool`
operation (spec §4.1) is absent from the repository sources — no
`delete` method exists on `AgentRegistry` and no route exposes one.
Per the spec's words it "removes the record if present, returns whether
a removal occurred (false, not an error, when absent)". -/
def delete_agent (store : Store) (aid : String) : Store × Bool :=
  if store.any (fun p => p.1 = aid) then
    (store.filter (fun p => p.1 ≠ aid), true)
  else (store, false)

/-! ### Concrete stores used by witnesses and counterexamples -/

/-- Record `A` of the two-cycle store: `A.parent_agent_id = B.id`. -/
def recA : Dict :=
  [("id", JVal.str "A"), ("name", JVal.str "a"), ("parent_agent_id", JVal.str "B")]

/-- Record `B` of the two-cycle store: `B.parent_agent_id = A.id`. -/
def recB : Dict :=
  [("id", JVal.str "B"), ("name", JVal.str "b"), ("parent_agent_id", JVal.str "A")]

/-- A store whose two records are each other's parent. -/
def cycStore : Store := [("A", recA), ("B", recB)]

/-- Root of the three-level chain store. -/
def chA : Dict :=
  [("id", JVal.str "A"), ("name", JVal.str "a"), ("model", JVal.str "m"),
   ("system_prompt", JVal.str "s"), ("tools", JVal.arr [])]

/-- Middle record of the chain store, child of `A`. -/
def chB : Dict := [("id", JVal.str "B"), ("parent_agent_id", JVal.str "A")]

/-- Leaf record of the chain store, child of `B`. -/
def chC : Dict := [("id", JVal.str "C"), ("parent_agent_id", JVal.str "B")]

/-- The three-level chain store `A → B → C`. -/
def chainStore : Store := [("A", chA), ("B", chB), ("C", chC)]

/-- Non-matching root of the delegation-search store. -/
def rR : Dict := [("id", JVal.str "R")]

/-- First child of `R`, no match, has a matching child. -/
def rX : Dict := [("id", JVal.str "X"), ("parent_agent_id", JVal.str "R")]

/-- Grandchild of `R` through `X`, matches task `"t"` via `capabilities`. -/
def rX1 : Dict :=
  [("id", JVal.str "X1"), ("parent_agent_id", JVal.str "X"),
   ("capabilities", JVal.arr [JVal.str "t"])]

/-- Second child of `R`, matches task `"t"` directly via `agent_type`. -/
def rY : Dict :=
  [("id", JVal.str "Y"), ("parent_agent_id", JVal.str "R"),
   ("agent_type", JVal.str "t")]

/-- Store where a deep match on the first branch shadows a shallow match
on a later sibling. -/
def dfsStore : Store := [("R", rR), ("X", rX), ("X1", rX1), ("Y", rY)]

/-! ## Shared lemmas about the store -/

/-- A list on which `any p` is `false` has no `find?` result. -/
theorem any_false_find?_none {a : Type} (p : a → Bool) (l : List a)
    (h : l.any p = false) : l.find? p = none := by
  rw [List.find?_eq_none]
  intro x hx hpx
  have hT := List.any_eq_true.mpr ⟨x, hx, hpx⟩
  rw [h] at hT
  exact Bool.false_ne_true hT

/-- Overwriting the entry keyed `aid` in place makes `find?` return it
(shared by file writes on the store and key assignment on a dict). -/
theorem find?_map_overwrite {a : Type} (aid : String) (d : a) :
    ∀ store : List (String × a), store.any (fun p => p.1 = aid) = true →
    (store.map (fun p => if p.1 = aid then (aid, d) else p)).find?
      (fun p => p.1 = aid) = some (aid, d) := by
  intro store h
  induction store with
  | nil => simp at h
  | cons p ps ih =>
    by_cases hp : p.1 = aid
    · simp only [List.map_cons, if_pos hp]
      exact List.find?_cons_of_pos _ (by simp)
    · simp only [List.map_cons, if_neg hp]
      rw [List.find?_cons_of_neg _ (by simpa using hp)]
      apply ih
      rw [List.any_cons] at h
      cases hor : ps.any (fun p => decide (p.1 = aid)) with
      | true => rfl
      | false => rw [hor] at h; simp [hp] at h

/-- After `writeFile store aid d`, the file named `aid` holds `d`. -/
theorem find?_writeFile (store : Store) (aid : String) (d : Dict) :
    (writeFile store aid d).find? (fun p => p.1 = aid) = some (aid, d) := by
  unfold writeFile
  cases h : store.any (fun p => p.1 = aid) with
  | true =>
    rw [if_pos rfl]
    exact find?_map_overwrite aid d store h
  | false =>
    rw [if_neg Bool.false_ne_true]
    rw [List.find?_append, any_false_find?_none _ _ h]
    simp [List.find?]

/-- Reading back a freshly written file. -/
theorem get_agent_writeFile (store : Store) (aid : String) (d : Dict) :
    get_agent (writeFile store aid d) aid = some d := by
  unfold get_agent
  rw [find?_writeFile]
  rfl

theorem get_agent_none_of_any_false (s : Store) (aid : String)
    (h : s.any (fun p => p.1 = aid) = false) : get_agent s aid = none := by
  unfold get_agent
  rw [any_false_find?_none _ _ h]
  rfl

theorem any_false_of_get_agent_none (s : Store) (aid : String)
    (h : get_agent s aid = none) : s.any (fun p => p.1 = aid) = false := by
  cases ha : s.any (fun p => p.1 = aid) with
  | false => rfl
  | true =>
    obtain ⟨x, hx, hpx⟩ := List.any_eq_true.mp ha
    unfold get_agent at h
    rw [Option.map_eq_none'] at h
    exact absurd hpx (List.find?_eq_none.mp h x hx)

theorem any_true_of_get_agent_ne_none (s : Store) (aid : String)
    (h : get_agent s aid ≠ none) : s.any (fun p => p.1 = aid) = true := by
  cases ha : s.any (fun p => p.1 = aid) with
  | true => rfl
  | false => exact absurd (get_agent_none_of_any_false s aid ha) h

theorem filter_no_key (s : Store) (aid : String) :
    (s.filter (fun p => p.1 ≠ aid)).any (fun p => p.1 = aid) = false := by
  cases ha : (s.filter (fun p => p.1 ≠ aid)).any (fun p => p.1 = aid) with
  | false => rfl
  | true =>
    obtain ⟨x, hx, hpx⟩ := List.any_eq_true.mp ha
    have hne := (List.mem_filter.mp hx).2
    simp only [decide_eq_true_eq] at hne hpx
    exact absurd hpx hne

/-- Claim C5: create-then-get round-trip.  For every store, fresh id and
configuration, creating a record and then reading its id back from the
resulting store returns exactly the record `create_agent` returned. -/
theorem create_then_get (store : Store) (aid : String) (cfg : Dict) :
    get_agent (create_agent store aid cfg).1 aid = some (create_agent store aid cfg).2 :=
  get_agent_writeFile store aid _

/-- Claim C9: the record returned (and persisted) by `create_agent`
carries exactly the five keys id, name, model, system_prompt, tools; the
freshly generated id is used regardless of any id supplied in the input;
supplied parent_agent_id, agent_type, capabilities, specializations and
status are discarded, so a created record has no parent. -/
theorem create_agent_fields (store : Store) (aid : String) (cfg : Dict) :
    (create_agent store aid cfg).2.map Prod.fst
        = ["id", "name", "model", "system_prompt", "tools"] ∧
    dget (create_agent store aid cfg).2 "id" = some (JVal.str aid) ∧
    dget (create_agent store aid cfg).2 "parent_agent_id" = none ∧
    dget (create_agent store aid cfg).2 "agent_type" = none ∧
    dget (create_agent store aid cfg).2 "capabilities" = none ∧
    dget (create_agent store aid cfg).2 "specializations" = none ∧
    dget (create_agent store aid cfg).2 "status" = none ∧
    get_agent (create_agent store aid cfg).1 aid = some (create_agent store aid cfg).2 :=
  ⟨rfl, rfl, rfl, rfl, rfl, rfl, rfl, get_agent_writeFile store aid _⟩

/-- Claim C6: the Record Store delete operation (modelled from the spec,
which is the only place it is defined) removes the record when present
and returns whether a removal occurred; deleting twice returns `true`
then `false`, and deleting an absent id returns `false` without error
and leaves the store unchanged. -/
theorem delete_agent_contract (store : Store) (aid : String)
    (h : get_agent store aid ≠ none) :
    (delete_agent store aid).2 = true ∧
    get_agent (delete_agent store aid).1 aid = none ∧
    delete_agent (delete_agent store aid).1 aid = ((delete_agent store aid).1, false) ∧
    (∀ s : Store, get_agent s aid = none → delete_agent s aid = (s, false)) := by
  have ha := any_true_of_get_agent_ne_none store aid h
  have habs : ∀ s : Store, get_agent s aid = none → delete_agent s aid = (s, false) := by
    intro s hs
    unfold delete_agent
    rw [if_neg (by simp [any_false_of_get_agent_none s aid hs])]
  have hdel : delete_agent store aid = (store.filter (fun p => p.1 ≠ aid), true) := by
    unfold delete_agent
    rw [if_pos ha]
  have hgone : get_agent (delete_agent store aid).1 aid = none := by
    rw [hdel]
    exact get_agent_none_of_any_false _ aid (filter_no_key store aid)
  exact ⟨by rw [hdel], hgone, habs _ hgone, habs⟩

/-- Claim C8: a create or update request whose `name` field is the empty
string fails pydantic validation in `main.py` before `AgentRegistry` is
reached, so the operation fails and the persisted store is unchanged. -/
theorem empty_name_rejected (store : Store) (aid : String) (body : Dict)
    (h : dget body "name" = some (JVal.str "")) :
    createEndpoint store aid body = (store, none) ∧
    updateEndpoint store aid body = (store, none) := by
  constructor
  · unfold createEndpoint parseAgentCreate
    rw [h]
    simp [vStr]
  · unfold updateEndpoint parseAgentUpdate vOptField
    rw [h]
    simp [isStrOk]

theorem buildL_cyc : ∀ f, buildL cycStore f [recA] = none ∧ buildL cycStore f [recB] = none := by
  intro f
  induction f with
  | zero => exact ⟨rfl, rfl⟩
  | succ f ih =>
    constructor
    · show buildGo cycStore (fun ns => buildL cycStore f ns) [recA] = none
      simp only [buildGo]
      rw [show get_children cycStore (dgetD recA "id" JVal.null) = [recB] from rfl, ih.2]
      rfl
    · show buildGo cycStore (fun ns => buildL cycStore f ns) [recB] = none
      simp only [buildGo]
      rw [show get_children cycStore (dgetD recB "id" JVal.null) = [recA] from rfl, ih.1]
      rfl

theorem dfsL_cyc : ∀ f, ∀ p : List JVal,
    dfsL cycStore "t" f [recA] p = none ∧ dfsL cycStore "t" f [recB] p = none := by
  intro f
  induction f with
  | zero => exact fun p => ⟨rfl, rfl⟩
  | succ f ih =>
    intro p
    constructor
    · show dfsGo cycStore "t" (fun ns q => dfsL cycStore "t" f ns q) [recA] p = none
      simp only [dfsGo]
      rw [if_neg (by decide)]
      rw [show get_children cycStore (dgetD recA "id" JVal.null) = [recB] from rfl]
      rw [(ih _).2]
    · show dfsGo cycStore "t" (fun ns q => dfsL cycStore "t" f ns q) [recB] p = none
      simp only [dfsGo]
      rw [if_neg (by decide)]
      rw [show get_children cycStore (dgetD recB "id" JVal.null) = [recA] from rfl]
      rw [(ih _).1]

/-- Claim C1 (the code defect): on the store where records A and B are
each other's parent, the cycle-unguarded recursions of `get_agent_tree`
and `find_delegation_chain` never finish: for every fuel bound the
embedded computations are still unfinished, so the source functions
recurse without bound instead of returning a finite tree. -/
theorem cycle_divergence : ∀ fuel : Nat,
    buildNode cycStore fuel recA = none ∧
    get_agent_tree cycStore fuel "A" = none ∧
    (∀ path, dfsF cycStore "t" fuel recA path = none) ∧
    find_delegation_chain cycStore "t" "A" fuel = none := by
  intro fuel
  have hb : buildNode cycStore fuel recA = none := by
    cases fuel with
    | zero => rfl
    | succ f =>
      show (buildL cycStore f (get_children cycStore (dgetD recA "id" JVal.null))).map
             (mkTreeNode recA) = none
      rw [show get_children cycStore (dgetD recA "id" JVal.null) = [recB] from rfl,
          (buildL_cyc f).2]
      rfl
  have hd : ∀ path, dfsF cycStore "t" fuel recA path = none := by
    intro path
    cases fuel with
    | zero => rfl
    | succ f =>
      simp only [dfsF]
      rw [if_neg (by decide)]
      rw [show get_children cycStore (dgetD recA "id" JVal.null) = [recB] from rfl]
      exact (dfsL_cyc f _).2
  refine ⟨hb, ?_, hd, ?_⟩
  · show (buildNode cycStore fuel recA).map Except.ok = none
    rw [hb]
    rfl
  · show (dfsF cycStore "t" fuel recA []).map (fun r => r.getD []) = none
    rw [hd []]
    rfl

/-- The tree node that `get_agent_tree` builds for the childless record
`C` of the chain store. -/
def treeC : List (String × JVal) :=
  [("id", JVal.str "C"), ("name", JVal.null), ("model", JVal.null),
   ("system_prompt", JVal.null), ("tools", JVal.arr []), ("children", JVal.arr [])]

/-- Claim C3 (counterexample): the tree node built for a record carries
the keys id, name, model, system_prompt, tools, children — not the
agent_type and status keys the claim states: on the chain store, the
node built for `C` has no `agent_type` or `status` field. -/
theorem tree_node_fields_counterexample :
    get_agent_tree chainStore 1 "C" = some (Except.ok (JVal.obj treeC)) ∧
    treeC.map Prod.fst = ["id", "name", "model", "system_prompt", "tools", "children"] ∧
    dget treeC "agent_type" = none ∧
    dget treeC "status" = none ∧
    treeC.map Prod.fst ≠ ["id", "name", "model", "agent_type", "status", "children"] := by
  refine ⟨rfl, rfl, rfl, rfl, ?_⟩
  decide

/-- Claim C3 (amended): `get_agent_tree` fails with the not-found error
when the root id does not resolve; every tree node it builds carries
exactly the fields id, name, model, system_prompt, tools, children,
children being the recursive depth-first pre-order expansion of the
Hierarchy Index's children; on the chain A → B → C it yields the nested
chain with empty children at C. -/
theorem build_tree_amended :
    (∀ (store : Store) (fuel : Nat) (rid : String), get_agent store rid = none →
       get_agent_tree store fuel rid = some (Except.error ("Agent " ++ rid ++ " not found"))) ∧
    (∀ (store : Store) (fuel : Nat) (node : Dict) (t : List (String × JVal)),
       buildNode store fuel node = some (JVal.obj t) →
       t.map Prod.fst = ["id", "name", "model", "system_prompt", "tools", "children"]) ∧
    get_agent_tree chainStore 3 "A" = some (Except.ok (JVal.obj
      [("id", JVal.str "A"), ("name", JVal.str "a"), ("model", JVal.str "m"),
       ("system_prompt", JVal.str "s"), ("tools", JVal.arr []),
       ("children", JVal.arr
         [JVal.obj
           [("id", JVal.str "B"), ("name", JVal.null), ("model", JVal.null),
            ("system_prompt", JVal.null), ("tools", JVal.arr []),
            ("children", JVal.arr
              [JVal.obj
                [("id", JVal.str "C"), ("name", JVal.null), ("model", JVal.null),
                 ("system_prompt", JVal.null), ("tools", JVal.arr []),
                 ("children", JVal.arr [])]])]])])) := by
  refine ⟨?_, ?_, rfl⟩
  · intro store fuel rid h
    unfold get_agent_tree
    rw [h]
  · intro store fuel node t h
    cases fuel with
    | zero => exact absurd h (by simp [buildNode])
    | succ f =>
      simp only [buildNode] at h
      obtain ⟨cs, _, hmk⟩ := Option.map_eq_some'.mp h
      unfold mkTreeNode at hmk
      injection hmk with hlist
      rw [← hlist]
      rfl

/-- Witness for the amended claim C3 at concrete inputs: an unresolved
root id yields the not-found error, and a concretely built node has the
six amended keys. -/
theorem build_tree_amended_witness :
    get_agent_tree chainStore 5 "Z" = some (Except.error "Agent Z not found") ∧
    treeC.map Prod.fst = ["id", "name", "model", "system_prompt", "tools", "children"] :=
  ⟨build_tree_amended.1 chainStore 5 "Z" rfl,
   build_tree_amended.2.1 chainStore 1 chC treeC rfl⟩

/-- Setting a key then reading it gives the value just set. -/
theorem dget_dset_same (d : Dict) (k : String) (v : JVal) :
    dget (dset d k v) k = some v := by
  unfold dset
  cases h : d.any (fun p => p.1 = k) with
  | true =>
    rw [if_pos rfl]
    unfold dget
    rw [find?_map_overwrite k v d h]
    rfl
  | false =>
    rw [if_neg Bool.false_ne_true]
    unfold dget
    rw [List.find?_append, any_false_find?_none _ _ h]
    simp [List.find?]

/-- Setting one key leaves every other key's value unchanged. -/
theorem dget_dset_other (d : Dict) (k k' : String) (v : JVal) (hne : k' ≠ k) :
    dget (dset d k v) k' = dget d k' := by
  unfold dset
  cases h : d.any (fun p => p.1 = k) with
  | true =>
    rw [if_pos rfl]
    unfold dget
    congr 1
    clear h
    induction d with
    | nil => rfl
    | cons p ps ih =>
      by_cases hp : p.1 = k
      · simp only [List.map_cons, if_pos hp]
        rw [List.find?_cons_of_neg _ (by simpa using Ne.symm hne),
            List.find?_cons_of_neg _ (by simp [hp, Ne.symm hne])]
        exact ih
      · simp only [List.map_cons, if_neg hp]
        by_cases hp' : p.1 = k'
        · rw [List.find?_cons_of_pos _ (by simpa using hp'),
              List.find?_cons_of_pos _ (by simpa using hp')]
        · rw [List.find?_cons_of_neg _ (by simpa using hp'),
              List.find?_cons_of_neg _ (by simpa using hp')]
          exact ih
  | false =>
    rw [if_neg Bool.false_ne_true]
    unfold dget
    rw [List.find?_append]
    rw [show List.find? (fun p => p.1 = k') [(k, v)] = none from by
      simp [List.find?, Ne.symm hne]]
    cases List.find? (fun p => p.1 = k') d <;> rfl

/-- The merge loop of `update_agent` leaves keys absent from the update
map unchanged. -/
theorem foldl_merge_not_mem (U : Dict) (k : String)
    (hk : k ∉ U.map Prod.fst) :
    ∀ acc : Dict,
      dget (U.foldl (fun acc kv => if kv.1 = "id" then acc else dset acc kv.1 kv.2) acc) k
        = dget acc k := by
  induction U with
  | nil => intro acc; rfl
  | cons u us ih =>
    intro acc
    rw [List.foldl_cons]
    have hne : k ≠ u.1 := by
      intro he
      exact hk (by rw [List.map_cons, he]; exact List.mem_cons_self _ _)
    have hk' : k ∉ us.map Prod.fst := by
      intro hm
      exact hk (by rw [List.map_cons]; exact List.mem_cons_of_mem _ hm)
    rw [ih hk']
    by_cases hu : u.1 = "id"
    · rw [if_pos hu]
    · rw [if_neg hu, dget_dset_other _ _ _ _ hne]

/-- The merge loop of `update_agent` stores the value of each supplied
non-id key (keys are unique: the update map is a Python dict). -/
theorem foldl_merge_mem (U : Dict) (k : String) (v : JVal)
    (hnd : (U.map Prod.fst).Nodup) (hkid : k ≠ "id") (hmem : (k, v) ∈ U) :
    ∀ acc : Dict,
      dget (U.foldl (fun acc kv => if kv.1 = "id" then acc else dset acc kv.1 kv.2) acc) k
        = some v := by
  induction U with
  | nil => cases hmem
  | cons u us ih =>
    intro acc
    rw [List.foldl_cons]
    rw [List.map_cons, List.nodup_cons] at hnd
    rcases List.mem_cons.mp hmem with heq | hmem'
    · rw [← heq] at hnd ⊢
      rw [if_neg (by simpa using hkid)]
      rw [foldl_merge_not_mem us k hnd.1]
      exact dget_dset_same _ _ _
    · exact ih hnd.2 hmem' _

/-- Claim C4: for an existing record R fetched by its id, `update_agent`
overwrites exactly the keys present in the update map, leaves every
other key of R unchanged, forces the returned and persisted record's id
back to R's id even when the update tries to set id, and persists the
result. -/
theorem update_agent_frame (store : Store) (aid : String) (U : Dict) (R : Dict)
    (hR : get_agent store aid = some R)
    (hnd : (U.map Prod.fst).Nodup)
    (hid : dget R "id" = some (JVal.str aid)) :
    ∃ s2 r2, update_agent store aid U = some (s2, r2) ∧
      dget r2 "id" = some (JVal.str aid) ∧
      (∀ k v, (k, v) ∈ U → k ≠ "id" → dget r2 k = some v) ∧
      (∀ k, k ∉ U.map Prod.fst → dget r2 k = dget R k) ∧
      get_agent s2 aid = some r2 := by
  unfold update_agent
  rw [hR]
  refine ⟨_, _, rfl, dget_dset_same _ "id" _, ?_, ?_, get_agent_writeFile store aid _⟩
  · intro k v hmem hkid
    rw [dget_dset_other _ _ _ _ hkid]
    exact foldl_merge_mem U k v hnd hkid hmem R
  · intro k hk
    by_cases hkid : k = "id"
    · rw [hkid, dget_dset_same, hid]
    · rw [dget_dset_other _ _ _ _ hkid, foldl_merge_not_mem U k hk R]

/-- A one-record store for exercising the update frame conditions. -/
def updR : Dict :=
  [("id", JVal.str "A"), ("name", JVal.str "n"), ("status", JVal.str "active")]

/-- An update map that tries to overwrite the id. -/
def updU : Dict :=
  [("id", JVal.str "ZZZ"), ("name", JVal.str "new"), ("parent_agent_id", JVal.str "P")]

/-- Witness for claim C4 at a concrete store and update map (the map
even tries to set the id). -/
theorem update_agent_frame_witness :
    get_agent [("A", updR)] "A" = some updR ∧
    (updU.map Prod.fst).Nodup ∧
    dget updR "id" = some (JVal.str "A") ∧
    (∃ s2 r2, update_agent [("A", updR)] "A" updU = some (s2, r2) ∧
      dget r2 "id" = some (JVal.str "A") ∧
      (∀ k v, (k, v) ∈ updU → k ≠ "id" → dget r2 k = some v) ∧
      (∀ k, k ∉ updU.map Prod.fst → dget r2 k = dget updR k) ∧
      get_agent s2 "A" = some r2) :=
  ⟨rfl, by decide, rfl,
   update_agent_frame [("A", updR)] "A" updU updR rfl (by decide) rfl⟩

/-- Witness for claim C6 on a concrete store: deleting an existing id
succeeds, a second delete returns false, an absent id is no error. -/
theorem delete_agent_contract_witness :
    get_agent cycStore "A" ≠ none ∧
    ((delete_agent cycStore "A").2 = true ∧
     get_agent (delete_agent cycStore "A").1 "A" = none ∧
     delete_agent (delete_agent cycStore "A").1 "A" = ((delete_agent cycStore "A").1, false) ∧
     (∀ s : Store, get_agent s "A" = none → delete_agent s "A" = (s, false))) :=
  ⟨by decide, delete_agent_contract cycStore "A" (by decide)⟩

/-- Witness for claim C8 on a concrete one-record store and two concrete
requests whose name is the empty string. -/
theorem empty_name_rejected_witness :
    dget [("name", JVal.str "")] "name" = some (JVal.str "") ∧
    (createEndpoint [("A", updR)] "B" [("name", JVal.str "")] = ([("A", updR)], none) ∧
     updateEndpoint [("A", updR)] "B" [("name", JVal.str "")] = ([("A", updR)], none)) :=
  ⟨rfl, empty_name_rejected [("A", updR)] "B" [("name", JVal.str "")] rfl⟩

/-- Unfolding equation for the pre-order traversal on a cons cell. -/
theorem poL_succ_cons (store : Store) (g : Nat) (c : Dict) (cs : List Dict)
    (cur : List JVal) :
    poL store (Nat.succ g) (c :: cs) cur
      = match (poL store g (get_children store (dgetD c "id" JVal.null))
                (cur ++ [dgetD c "id" JVal.null])).map
              (fun rest => (cur ++ [dgetD c "id" JVal.null], c) :: rest) with
        | none => none
        | some l1 => (poL store (Nat.succ g) cs cur).map (l1 ++ ·) := rfl

/-- Unfolding equation for the delegation search on a cons cell. -/
theorem dfsL_succ_cons (store : Store) (task : String) (g : Nat) (c : Dict)
    (cs : List Dict) (cur : List JVal) :
    dfsL store task (Nat.succ g) (c :: cs) cur
      = match (if matchesA task c then some (some (cur ++ [dgetD c "id" JVal.null]))
               else dfsL store task g (get_children store (dgetD c "id" JVal.null))
                         (cur ++ [dgetD c "id" JVal.null])) with
        | none => none
        | some (some chain) => some (some chain)
        | some none => dfsL store task (Nat.succ g) cs cur := rfl

/-- Whenever the full pre-order traversal of a sibling list completes
within the given fuel, the delegation search on that list completes too
and returns exactly the path of the first node in pre-order that
satisfies the match predicate (or no chain when none matches). -/
theorem dfsL_poL (store : Store) (task : String) :
    ∀ (f : Nat) (cs : List Dict) (path : List JVal) (l : List (List JVal × Dict)),
      poL store f cs path = some l →
      dfsL store task f cs path
        = some ((l.find? (fun e => matchesA task e.2)).map Prod.fst) := by
  intro f
  induction f with
  | zero =>
    intro cs path l h
    cases cs with
    | nil =>
      injection h with h'
      rw [← h']
      rfl
    | cons c cs' => exact absurd h (by simp [poL])
  | succ g ihf =>
    intro cs
    induction cs with
    | nil =>
      intro path l h
      injection h with h'
      rw [← h']
      rfl
    | cons c cs' ihl =>
      intro path l h
      rw [poL_succ_cons] at h
      cases hrest : poL store g (get_children store (dgetD c "id" JVal.null))
          (path ++ [dgetD c "id" JVal.null]) with
      | none => rw [hrest] at h; exact absurd h (by simp)
      | some rest =>
        rw [hrest] at h
        have h2 : (poL store (Nat.succ g) cs' path).map
            (((path ++ [dgetD c "id" JVal.null], c) :: rest) ++ ·) = some l := h
        obtain ⟨l2, hl2, hl⟩ := Option.map_eq_some'.mp h2
        rw [dfsL_succ_cons]
        cases hm : matchesA task c with
        | true =>
          rw [if_pos rfl, ← hl, List.cons_append,
              @List.find?_cons_of_pos _ (fun e => matchesA task e.2)
                (path ++ [dgetD c "id" JVal.null], c) (rest ++ l2) hm]
          rfl
        | false =>
          rw [if_neg Bool.false_ne_true]
          have hchild := ihf (get_children store (dgetD c "id" JVal.null))
            (path ++ [dgetD c "id" JVal.null]) rest hrest
          rw [hchild, ← hl, List.cons_append,
              @List.find?_cons_of_neg _ (fun e => matchesA task e.2)
                (path ++ [dgetD c "id" JVal.null], c) (rest ++ l2) (by simp [hm]),
              List.find?_append]
          cases hfind : rest.find? (fun e => matchesA task e.2) with
          | some e => rfl
          | none =>
            rw [ihl path l2 hl2]
            rfl

/-- When the root resolves and the full pre-order traversal from it
completes within the fuel, `find_delegation_chain` returns the path of
the first matching traversal entry, or `[]` when none matches. -/
theorem fdc_poP (store : Store) (task rid : String) (fuel : Nat)
    (root : Dict) (l : List (List JVal × Dict))
    (hroot : get_agent store rid = some root)
    (hpo : poP store fuel root [] = some l) :
    find_delegation_chain store task rid fuel
      = some (((l.find? (fun e => matchesA task e.2)).map Prod.fst).getD []) := by
  unfold find_delegation_chain
  rw [hroot]
  cases fuel with
  | zero => exact absurd hpo (by simp [poP])
  | succ f =>
    have hpo2 : (poL store f (get_children store (dgetD root "id" JVal.null))
        ([] ++ [dgetD root "id" JVal.null])).map
        (fun rest => ([] ++ [dgetD root "id" JVal.null], root) :: rest) = some l := hpo
    obtain ⟨rest, hrest, hl⟩ := Option.map_eq_some'.mp hpo2
    show (dfsF store task (Nat.succ f) root []).map (fun r => r.getD []) = _
    cases hm : matchesA task root with
    | true =>
      have hdfs : dfsF store task (Nat.succ f) root []
          = some (some ([] ++ [dgetD root "id" JVal.null])) := by
        show (if matchesA task root = true
              then some (some ([] ++ [dgetD root "id" JVal.null]))
              else dfsL store task f (get_children store (dgetD root "id" JVal.null))
                     ([] ++ [dgetD root "id" JVal.null])) = _
        rw [if_pos hm]
      rw [hdfs, ← hl,
          @List.find?_cons_of_pos _ (fun e => matchesA task e.2)
            ([] ++ [dgetD root "id" JVal.null], root) rest hm]
      rfl
    | false =>
      have hdfs : dfsF store task (Nat.succ f) root []
          = dfsL store task f (get_children store (dgetD root "id" JVal.null))
              ([] ++ [dgetD root "id" JVal.null]) := by
        show (if matchesA task root = true
              then some (some ([] ++ [dgetD root "id" JVal.null]))
              else dfsL store task f (get_children store (dgetD root "id" JVal.null))
                     ([] ++ [dgetD root "id" JVal.null])) = _
        rw [if_neg (by simp [hm])]
      rw [hdfs, dfsL_poL store task f _ _ rest hrest, ← hl,
          @List.find?_cons_of_neg _ (fun e => matchesA task e.2)
            ([] ++ [dgetD root "id" JVal.null], root) rest (by simp [hm])]
      cases rest.find? (fun e => matchesA task e.2) <;> rfl

/-- Claim C2: `find_delegation_chain` returns the empty sequence when
the root id does not resolve; returns the one-element chain of the
root's id when the root itself matches (descendants notwithstanding);
and otherwise returns exactly the root-to-node path of the first
matching node in depth-first pre-order over the Hierarchy Index's child
ordering — the empty sequence when no reachable node matches. -/
theorem find_delegation_chain_spec (store : Store) (task rid : String) (fuel : Nat) :
    (get_agent store rid = none →
       find_delegation_chain store task rid fuel = some []) ∧
    (∀ root, get_agent store rid = some root → matchesA task root = true →
       1 ≤ fuel →
       find_delegation_chain store task rid fuel
         = some [dgetD root "id" JVal.null]) ∧
    (∀ root l, get_agent store rid = some root →
       poP store fuel root [] = some l →
       find_delegation_chain store task rid fuel
         = some (((l.find? (fun e => matchesA task e.2)).map Prod.fst).getD [])) := by
  refine ⟨?_, ?_, fun root l hr hp => fdc_poP store task rid fuel root l hr hp⟩
  · intro h
    unfold find_delegation_chain
    rw [h]
  · intro root hroot hm hf
    unfold find_delegation_chain
    rw [hroot]
    cases fuel with
    | zero => exact absurd hf (by omega)
    | succ f =>
      show (dfsF store task (Nat.succ f) root []).map (fun r => r.getD [])
        = some [dgetD root "id" JVal.null]
      have hdfs : dfsF store task (Nat.succ f) root []
          = some (some ([] ++ [dgetD root "id" JVal.null])) := by
        show (if matchesA task root = true
              then some (some ([] ++ [dgetD root "id" JVal.null]))
              else dfsL store task f (get_children store (dgetD root "id" JVal.null))
                     ([] ++ [dgetD root "id" JVal.null])) = _
        rw [if_pos hm]
      rw [hdfs]
      rfl

/-- The pre-order traversal of `dfsStore` from its root `R`. -/
def poDfs : List (List JVal × Dict) :=
  [([JVal.str "R"], rR),
   ([JVal.str "R", JVal.str "X"], rX),
   ([JVal.str "R", JVal.str "X", JVal.str "X1"], rX1),
   ([JVal.str "R", JVal.str "Y"], rY)]

/-- Witness for claim C2 on the concrete search store: the chain is the
path of the first matching pre-order entry. -/
theorem find_delegation_chain_spec_witness :
    get_agent dfsStore "R" = some rR ∧
    poP dfsStore 5 rR [] = some poDfs ∧
    find_delegation_chain dfsStore "t" "R" 5
      = some (((poDfs.find? (fun e => matchesA "t" e.2)).map Prod.fst).getD []) :=
  ⟨rfl, rfl, (find_delegation_chain_spec dfsStore "t" "R" 5).2.2 rR poDfs rfl rfl⟩

/-- Claim C7 (counterexample): the search is first-found, not shortest:
on `dfsStore`, `find_delegation_chain` returns the length-3 chain
through the first child branch although node `Y` — a direct child of
the root that also matches — gives a matching root-to-node path of
length 2. -/
theorem shortest_chain_counterexample :
    find_delegation_chain dfsStore "t" "R" 5
      = some [JVal.str "R", JVal.str "X", JVal.str "X1"] ∧
    [JVal.str "R", JVal.str "X", JVal.str "X1"].length = 3 ∧
    get_agent dfsStore "Y" = some rY ∧
    matchesA "t" rY = true ∧
    dgetD rY "parent_agent_id" JVal.null = dgetD rR "id" JVal.null ∧
    get_agent dfsStore "R" = some rR ∧
    [dgetD rR "id" JVal.null, dgetD rY "id" JVal.null].length = 2 :=
  ⟨rfl, rfl, rfl, rfl, rfl, rfl, rfl⟩

/-- Claim C7 (amended): when the root resolves and the traversal
completes, the chain returned is the root-to-node path of the FIRST
matching node in depth-first pre-order — first-found, not necessarily a
shortest matching path. -/
theorem first_found_chain (store : Store) (task rid : String) (fuel : Nat)
    (root : Dict) (l : List (List JVal × Dict)) (e : List JVal × Dict)
    (hroot : get_agent store rid = some root)
    (hpo : poP store fuel root [] = some l)
    (hfind : l.find? (fun x => matchesA task x.2) = some e) :
    find_delegation_chain store task rid fuel = some e.1 := by
  rw [fdc_poP store task rid fuel root l hroot hpo, hfind]
  rfl

/-- Witness for the amended claim C7: on `dfsStore`, the first matching
pre-order entry is the deep node `X1`, and the chain returned is its
path. -/
theorem first_found_chain_witness :
    get_agent dfsStore "R" = some rR ∧
    poP dfsStore 5 rR [] = some poDfs ∧
    poDfs.find? (fun x => matchesA "t" x.2)
      = some ([JVal.str "R", JVal.str "X", JVal.str "X1"], rX1) ∧
    find_delegation_chain dfsStore "t" "R" 5
      = some [JVal.str "R", JVal.str "X", JVal.str "X1"] :=
  ⟨rfl, rfl, rfl,
   first_found_chain dfsStore "t" "R" 5 rR poDfs
     ([JVal.str "R", JVal.str "X", JVal.str "X1"], rX1) rfl rfl rfl⟩

/-- Membership in the Hierarchy Index's answer: a child is a stored
record whose `parent_agent_id` equals the queried value. -/
theorem mem_get_children (store : Store) (v : JVal) (c : Dict)
    (h : c ∈ get_children store v) :
    c ∈ store.map Prod.snd ∧ dgetD c "parent_agent_id" JVal.null = v := by
  unfold get_children at h
  obtain ⟨p, hp, hpc⟩ := List.mem_map.mp h
  have hf := List.mem_filter.mp hp
  constructor
  · exact List.mem_map.mpr ⟨p, hf.1, hpc⟩
  · rw [← hpc]
    exact of_decide_eq_true hf.2

/-- Unfolding equation for the delegation search on a cons cell, phrased
through the one-node search. -/
theorem dfsL_succ_consF (store : Store) (task : String) (g : Nat) (c : Dict)
    (cs : List Dict) (cur : List JVal) :
    dfsL store task (Nat.succ g) (c :: cs) cur
      = match dfsF store task (Nat.succ g) c cur with
        | none => none
        | some (some chain) => some (some chain)
        | some none => dfsL store task (Nat.succ g) cs cur := rfl

/-- A chain produced by the search over a sibling list comes from the
search rooted at one of the siblings. -/
theorem dfsL_some_chain (store : Store) (task : String) :
    ∀ (f : Nat) (cs : List Dict) (cur : List JVal) (chain : List JVal),
      dfsL store task f cs cur = some (some chain) →
      ∃ c ∈ cs, dfsF store task f c cur = some (some chain) := by
  intro f
  cases f with
  | zero =>
    intro cs cur chain h
    cases cs with
    | nil => exact absurd h (by simp [dfsL])
    | cons c cs' => exact absurd h (by simp [dfsL])
  | succ g =>
    intro cs
    induction cs with
    | nil => intro cur chain h; exact absurd h (by simp [dfsL, dfsGo])
    | cons c cs' ih =>
      intro cur chain h
      rw [dfsL_succ_consF] at h
      cases hc : dfsF store task (Nat.succ g) c cur with
      | none => rw [hc] at h; exact absurd h (by simp)
      | some r =>
        cases r with
        | some p =>
          rw [hc] at h
          refine ⟨c, List.mem_cons_self _ _, ?_⟩
          rw [hc]
          exact h
        | none =>
          rw [hc] at h
          obtain ⟨c', hc', hf⟩ := ih cur chain h
          exact ⟨c', List.mem_cons_of_mem _ hc', hf⟩

/-- The recorded step between two consecutive records of a delegation
chain: the later one is stored and points at the earlier via
`parent_agent_id`. -/
def chainStep (store : Store) (r r2 : Dict) : Prop :=
  r2 ∈ store.map Prod.snd ∧
  dgetD r2 "parent_agent_id" JVal.null = dgetD r "id" JVal.null

/-- Every chain the search returns is the id-image of a sequence of
records read during the search: headed by the start node, linked
parent-to-child, matching exactly at its last record. -/
theorem dfsF_chain (store : Store) (task : String) :
    ∀ (f : Nat) (node : Dict) (path : List JVal) (chain : List JVal),
      dfsF store task f node path = some (some chain) →
      ∃ recs : List Dict, recs ≠ [] ∧ recs.head? = some node ∧
        chain = path ++ recs.map (fun r => dgetD r "id" JVal.null) ∧
        List.Chain' (chainStep store) recs ∧
        (∃ lst, recs.getLast? = some lst ∧ matchesA task lst = true) ∧
        (∀ r ∈ recs.dropLast, matchesA task r = false) := by
  intro f
  induction f with
  | zero => intro node path chain h; exact absurd h (by simp [dfsF])
  | succ g ih =>
    intro node path chain h
    have h2 : (if matchesA task node = true
               then some (some (path ++ [dgetD node "id" JVal.null]))
               else dfsL store task g (get_children store (dgetD node "id" JVal.null))
                      (path ++ [dgetD node "id" JVal.null]))
        = some (some chain) := h
    cases hm : matchesA task node with
    | true =>
      rw [if_pos hm] at h2
      injection h2 with h3
      injection h3 with h4
      refine ⟨[node], by simp, rfl, by rw [← h4]; rfl,
              List.chain'_singleton node, ⟨node, rfl, hm⟩, by simp⟩
    | false =>
      rw [if_neg (by simp [hm])] at h2
      obtain ⟨c, hcmem, hcf⟩ := dfsL_some_chain store task g _ _ _ h2
      obtain ⟨recs, hne, hhead, hch, hlink, hlast, hdrop⟩ := ih c _ _ hcf
      cases recs with
      | nil => exact absurd rfl hne
      | cons c0 recs' =>
        have hc0 : c0 = c := by
          have h5 : some c0 = some c := hhead
          injection h5
        subst hc0
        have hstep : chainStep store node c0 := by
          have hmm := mem_get_children store (dgetD node "id" JVal.null) c0 hcmem
          exact ⟨hmm.1, hmm.2⟩
        refine ⟨node :: c0 :: recs', by simp, rfl, ?_, ?_, ?_, ?_⟩
        · rw [hch]
          simp
        · exact List.chain'_cons.mpr ⟨hstep, hlink⟩
        · obtain ⟨lst, hl1, hl2⟩ := hlast
          exact ⟨lst, by rw [List.getLast?_cons_cons]; exact hl1, hl2⟩
        · intro r hr
          rw [List.dropLast_cons₂] at hr
          rcases List.mem_cons.mp hr with h | h
          · rw [h]; exact hm
          · exact hdrop r h

/-- Claim C10: every non-empty chain returned by `find_delegation_chain`
is well formed over the records read during the search: it is the
id-image of a record sequence headed by the root record (so its first
element is the root id), each later record is a stored record whose
`parent_agent_id` is the preceding record's id, the last record matches
the task type, and no earlier record does. -/
theorem chain_well_formed (store : Store) (task rid : String) (fuel : Nat)
    (chain : List JVal) (root : Dict)
    (hroot : get_agent store rid = some root)
    (hid : dgetD root "id" JVal.null = JVal.str rid)
    (hrun : find_delegation_chain store task rid fuel = some chain)
    (hne : chain ≠ []) :
    ∃ recs : List Dict, recs.head? = some root ∧
      chain.head? = some (JVal.str rid) ∧
      chain = recs.map (fun r => dgetD r "id" JVal.null) ∧
      List.Chain' (chainStep store) recs ∧
      (∃ lst, recs.getLast? = some lst ∧ matchesA task lst = true) ∧
      (∀ r ∈ recs.dropLast, matchesA task r = false) := by
  unfold find_delegation_chain at hrun
  rw [hroot] at hrun
  have hrun2 : (dfsF store task fuel root []).map (fun r => r.getD []) = some chain := hrun
  clear hrun
  cases hdfs : dfsF store task fuel root [] with
  | none => rw [hdfs] at hrun2; exact absurd hrun2 (by simp)
  | some r =>
    cases r with
    | none =>
      rw [hdfs] at hrun2
      simp at hrun2
      exact absurd hrun2 hne
    | some p =>
      rw [hdfs] at hrun2
      simp at hrun2
      obtain ⟨recs, hrne, hhead, hch, hlink, hlast, hdrop⟩ :=
        dfsF_chain store task fuel root [] p hdfs
      rw [List.nil_append] at hch
      refine ⟨recs, hhead, ?_, by rw [← hrun2, hch], hlink, hlast, hdrop⟩
      rw [← hrun2, hch, List.head?_map, hhead]
      simp [hid]

/-- Witness for claim C10 on the concrete search store: the returned
chain R, X, X1 is exhibited as well formed. -/
theorem chain_well_formed_witness :
    get_agent dfsStore "R" = some rR ∧
    dgetD rR "id" JVal.null = JVal.str "R" ∧
    find_delegation_chain dfsStore "t" "R" 5
      = some [JVal.str "R", JVal.str "X", JVal.str "X1"] ∧
    ([JVal.str "R", JVal.str "X", JVal.str "X1"] : List JVal) ≠ [] ∧
    (∃ recs : List Dict, recs.head? = some rR ∧
      ([JVal.str "R", JVal.str "X", JVal.str "X1"] : List JVal).head? = some (JVal.str "R") ∧
      ([JVal.str "R", JVal.str "X", JVal.str "X1"] : List JVal)
        = recs.map (fun r => dgetD r "id" JVal.null) ∧
      List.Chain' (chainStep dfsStore) recs ∧
      (∃ lst, recs.getLast? = some lst ∧ matchesA "t" lst = true) ∧
      (∀ r ∈ recs.dropLast, matchesA "t" r = false)) :=
  ⟨rfl, rfl, rfl, by decide,
   chain_well_formed dfsStore "t" "R" 5
     [JVal.str "R", JVal.str "X", JVal.str "X1"] rR rfl rfl rfl (by decide)⟩
